import Mathlib

/-!
Verification of the OpenEXR HDR environment-map decoder
(`load_hdr_environment_map` in `code/mapa_srodowiska/main.py`).

The decoder is embedded at the byte level: the raw channel data returned by
the OpenEXR library and the assembled pixel buffer are lists of byte values
(`List Nat`), and the Python `bytearray` slice reads and slice assignments
used by the source are modelled exactly, including the fact that assigning a
source of a different length to a slice resizes the buffer.
-/

namespace HdrLoad

/-- Python slice read `buf[a:b]` for non-negative indices `a ≤ b`
(the only shape the source uses): the elements at positions `a, …, b-1`,
clipped to the end of the buffer. -/
def pySlice (buf : List Nat) (a b : Nat) : List Nat :=
  (buf.drop a).take (b - a)

/-- Python slice assignment `buf[a:b] = src` for non-negative indices
`a ≤ b` (the only shape the source uses).  Python replaces the clipped
range `[a, min b len)` by `src`, resizing the buffer when the lengths
differ; an out-of-range start appends at the end. -/
def pySliceAssign (buf src : List Nat) (a b : Nat) : List Nat :=
  buf.take a ++ src ++ buf.drop b

/-- `for q in range(n)`-style left fold, visiting `0, 1, …, n-1` in order. -/
def foldRange (n : Nat) (f : α → Nat → α) (a : α) : α :=
  (List.range n).foldl f a

/-- `bytearray(n)` for `n ≥ 0`: `n` zero bytes. -/
def pyZeros (n : Nat) : List Nat :=
  List.replicate n 0

/-- The `dataWindow` rectangle of an EXR header (`Imath.Box2i`):
inclusive pixel-coordinate bounds. -/
structure Box2i where
  minX : Int
  minY : Int
  maxX : Int
  maxY : Int
deriving DecidableEq, Repr

/-- The data an opened EXR container exposes to the loader: the declared
data window and, per channel name, the raw bytes the library returns for
`channel(name, Imath.PixelType(FLOAT))` (32-bit floats, 4 bytes each, in
stored scanline order, row 0 = topmost stored scanline). -/
structure ExrFile where
  dataWindow : Box2i
  channels : List (String × List Nat)
deriving DecidableEq, Repr

/-- The Python exceptions the loader can surface, by kind.
`fileNotFoundError`, `permissionError` and `osError` are raised by the
source itself; `channelNotFound` models the exception the OpenEXR binding
raises from `InputFile.channel` when the named channel is absent (the
library's message carries the channel name); `valueError` is what
`bytearray(n)` raises for negative `n`. -/
inductive PyError where
  | fileNotFoundError (msg : String)
  | permissionError (msg : String)
  | osError (msg : String)
  | channelNotFound (channel : String)
  | valueError (msg : String)
deriving DecidableEq, Repr

/-- `exr_file.channel(name, Imath.PixelType(FLOAT))`: the raw bytes of the
named channel, or the library's channel-not-found exception.  A present
channel is always delivered (the FLOAT pixel-type argument makes the
library convert any stored depth to 32-bit floats). -/
def ExrFile.channelBytes (f : ExrFile) (name : String) : Except PyError (List Nat) :=
  match f.channels.lookup name with
  | some bs => .ok bs
  | none => .error (.channelNotFound name)

/-- What the operating system and the OpenEXR library answer for one path:
`os.path.exists`, `os.access(path, os.R_OK)`, and the outcome of
`OpenEXR.InputFile(path)` (the message of the raised exception, or the
opened container). -/
structure PathEnv where
  pathExists : Bool
  readable : Bool
  openResult : Except String ExrFile
deriving Repr

/-- One pass of the interleaving loop of `load_hdr_environment_map`
(lines 47-52): for channel index `i` with raw bytes `ch`, for `j` in
`range(height)` and `k` in `range(width)`, copy the 4-byte float of pixel
`(k, j)` from `ch` into `buf` at `index = (j*width + k)*3*4 + i*4`. -/
def interleavePass (w h i : Nat) (ch buf : List Nat) : List Nat :=
  foldRange h (fun buf j =>
    foldRange w (fun buf k =>
      pySliceAssign buf
        (pySlice ch ((j * w + k) * 4) ((j * w + k + 1) * 4))
        ((j * w + k) * 3 * 4 + i * 4) ((j * w + k) * 3 * 4 + i * 4 + 4)) buf) buf

/-- Lines 46-52 of the source: the loop over the fixed channel list
`['R', 'G', 'B']` (so `i = 0, 1, 2` in that order), starting from
`bytearray(n)` where `n` is the (non-negative) requested size. -/
def interleaveChannels (w h n : Nat) (r g b : List Nat) : List Nat :=
  interleavePass w h 2 b (interleavePass w h 1 g (interleavePass w h 0 r (pyZeros n)))

/-- Lines 54-60 of the source: the vertical flip.  `row_size = width*3*4`;
for `j` in `range(height)` the stored row `j` of `buf` is copied into row
`height-1-j` of a fresh `bytearray(n)`. -/
def flipVertical (w h n : Nat) (buf : List Nat) : List Nat :=
  foldRange h (fun out j =>
    pySliceAssign out
      (pySlice buf (j * (w * 3 * 4)) (j * (w * 3 * 4) + w * 3 * 4))
      ((h - 1 - j) * (w * 3 * 4)) ((h - 1 - j) * (w * 3 * 4) + w * 3 * 4)) (pyZeros n)

/-- The whole buffer-assembly part of `load_hdr_environment_map`
(lines 46-60): interleave the three channel planes, then flip vertically. -/
def assemblePixels (w h n : Nat) (r g b : List Nat) : List Nat :=
  flipVertical w h n (interleaveChannels w h n r g b)

/-- `load_hdr_environment_map(filepath)` (lines 7-62 of the source),
given what the OS and the OpenEXR library answer for `filepath`:
1. `not os.path.exists` → `FileNotFoundError`;
2. `not os.access(filepath, os.R_OK)` → `PermissionError`;
3. `OpenEXR.InputFile` raising → `OSError` wrapping the cause;
4. read `dataWindow`, compute `width = max.x - min.x + 1`,
   `height = max.y - min.y + 1` (no positivity check in the source);
5. read channels `'R', 'G', 'B'` in that order (a missing channel's
   library exception propagates);
6. `bytearray(width*height*3*4)` (raising `ValueError` when negative),
   interleave, flip, and return `(width, height, bytes)`. -/
def load_hdr_environment_map (filepath : String) (env : PathEnv) :
    Except PyError (Int × Int × List Nat) :=
  if env.pathExists = false then
    .error (.fileNotFoundError ("File not found: " ++ filepath))
  else if env.readable = false then
    .error (.permissionError ("File is not readable: " ++ filepath))
  else
    match env.openResult with
    | .error e => .error (.osError ("Unable to open '" ++ filepath ++ "' for read: " ++ e))
    | .ok exr_file =>
      let dw := exr_file.dataWindow
      let width : Int := dw.maxX - dw.minX + 1
      let height : Int := dw.maxY - dw.minY + 1
      match exr_file.channelBytes "R" with
      | .error e => .error e
      | .ok rBytes =>
        match exr_file.channelBytes "G" with
        | .error e => .error e
        | .ok gBytes =>
          match exr_file.channelBytes "B" with
          | .error e => .error e
          | .ok bBytes =>
            if width * height * 3 * 4 < 0 then
              .error (.valueError "negative count")
            else
              .ok (width, height,
                assemblePixels width.toNat height.toNat (width * height * 3 * 4).toNat
                  rBytes gBytes bBytes)

/-- A world of files: what the OS and library answer for every path.
`load_hdr_environment_map` only reads (`os.path.exists`, `os.access`,
`OpenEXR.InputFile`, `header`, `channel` are all reads and the function
touches no module-level mutable state), so a call returns the world
unchanged together with the result computed from the answers for the
requested path. -/
def loadFromWorld (world : String → PathEnv) (filepath : String) :
    (String → PathEnv) × Except PyError (Int × Int × List Nat) :=
  (world, load_hdr_environment_map filepath (world filepath))

/-- The 4 bytes holding 32-bit float number `p` (0-based) of a byte
buffer; two floats are bit-identical exactly when these byte lists are
equal. -/
def float32At (buf : List Nat) (p : Nat) : List Nat :=
  pySlice buf (p * 4) (p * 4 + 4)

/-- Whether 4 little-endian bytes encode a finite IEEE-754 binary32 value:
finite exactly when the exponent field (bits 23-30) is not all ones. -/
def isFiniteF32 (bs : List Nat) : Bool :=
  match bs with
  | [_, _, b2, b3] => decide (¬ (b3 % 128 * 2 + b2 / 128 = 255))
  | _ => false

/-- Modelled from the spec (round-trip check, §8): exchange row
`height-1-y` with row `y` of the returned buffer — i.e. list the rows in
reversed order (row size `width*3*4` bytes). -/
def unflipRows (w h : Nat) (buf : List Nat) : List Nat :=
  ((List.range h).map (fun r =>
    pySlice buf ((h - 1 - r) * (w * 3 * 4)) ((h - 1 - r) * (w * 3 * 4) + w * 3 * 4))).flatten

/-- Modelled from the spec (round-trip check, §8): de-interleave a
channel-interleaved buffer back into the plane of channel index `c`
(4 bytes per pixel, taken from positions `(q*3 + c)*4 …` for every pixel
index `q`). -/
def deinterleave (w h c : Nat) (buf : List Nat) : List Nat :=
  ((List.range (w * h)).map (fun q =>
    pySlice buf (q * 3 * 4 + c * 4) (q * 3 * 4 + c * 4 + 4))).flatten

/-! ### Basic lemmas about the Python-semantics primitives -/

theorem foldRange_zero (f : α → Nat → α) (a : α) : foldRange 0 f a = a := rfl

theorem foldRange_succ (n : Nat) (f : α → Nat → α) (a : α) :
    foldRange (n + 1) f a = f (foldRange n f a) n := by
  unfold foldRange
  rw [List.range_succ, List.foldl_append]
  rfl

theorem foldRange_add (m n : Nat) (f : α → Nat → α) (a : α) :
    foldRange (m + n) f a = foldRange n (fun b k => f b (m + k)) (foldRange m f a) := by
  unfold foldRange
  rw [List.range_add, List.foldl_append, List.foldl_map]

theorem foldRange_mul (h w : Nat) (g : α → Nat → α) (a : α) :
    foldRange h (fun b j => foldRange w (fun b k => g b (j * w + k)) b) a =
      foldRange (h * w) g a := by
  induction h with
  | zero => simp [foldRange]
  | succ h ih => rw [foldRange_succ, ih, Nat.succ_mul, foldRange_add]

theorem length_pySlice (l : List Nat) (a b : Nat) :
    (pySlice l a b).length = min (b - a) (l.length - a) := by
  simp [pySlice]

theorem getElem?_pySlice (l : List Nat) (a b o : Nat) (h : o < b - a) :
    (pySlice l a b)[o]? = l[a + o]? := by
  rw [pySlice, List.getElem?_take, if_pos h, List.getElem?_drop]

theorem length_pySliceAssign (buf src : List Nat) (a k : Nat)
    (h : a + k ≤ buf.length) (hs : src.length = k) :
    (pySliceAssign buf src a (a + k)).length = buf.length := by
  simp [pySliceAssign, hs]
  omega

theorem getElem?_pySliceAssign_lt (buf src : List Nat) (a b p : Nat)
    (hp : p < a) (hb : a ≤ buf.length) :
    (pySliceAssign buf src a b)[p]? = buf[p]? := by
  have hl : (List.take a buf).length = a := by simp [List.length_take]; omega
  rw [pySliceAssign, List.getElem?_append, if_pos (by simp [hl]; omega),
    List.getElem?_append, if_pos (by rw [hl]; omega), List.getElem?_take, if_pos hp]

theorem getElem?_pySliceAssign_mid (buf src : List Nat) (a b o : Nat)
    (ho : o < src.length) (hb : a ≤ buf.length) :
    (pySliceAssign buf src a b)[a + o]? = src[o]? := by
  have hl : (List.take a buf).length = a := by simp [List.length_take]; omega
  rw [pySliceAssign, List.getElem?_append, if_pos (by simp [hl]; omega),
    List.getElem?_append, if_neg (by rw [hl]; omega), hl, Nat.add_sub_cancel_left]

theorem getElem?_pySliceAssign_ge (buf src : List Nat) (a k p : Nat)
    (hp : a + k ≤ p) (hb : a + k ≤ buf.length) (hs : src.length = k) :
    (pySliceAssign buf src a (a + k))[p]? = buf[p]? := by
  have hl : (List.take a buf ++ src).length = a + k := by simp [List.length_take, hs]; omega
  rw [pySliceAssign, List.getElem?_append, if_neg (by rw [hl]; omega), hl,
    List.getElem?_drop]
  congr 1
  omega

/-! ### A generic pass of disjoint fixed-width slice writes -/

/-- `m` slice assignments of width `wd`, write `q` putting `src q` at
`[pos q, pos q + wd)`, performed for `q = 0, 1, …, m-1` in order.  Both
the interleaving loops and the flip loop of the source are passes of this
shape. -/
def writePass (wd : Nat) (pos : Nat → Nat) (src : Nat → List Nat) :
    Nat → List Nat → List Nat
  | 0, buf => buf
  | m + 1, buf =>
      pySliceAssign (writePass wd pos src m buf) (src m) (pos m) (pos m + wd)

theorem foldRange_eq_writePass (wd : Nat) (pos : Nat → Nat) (src : Nat → List Nat)
    (m : Nat) (buf : List Nat) :
    foldRange m (fun b q => pySliceAssign b (src q) (pos q) (pos q + wd)) buf =
      writePass wd pos src m buf := by
  induction m with
  | zero => rfl
  | succ m ih => rw [foldRange_succ, ih, writePass]

theorem length_writePass (wd : Nat) (pos : Nat → Nat) (src : Nat → List Nat)
    (m : Nat) (buf : List Nat)
    (hpos : ∀ q, q < m → pos q + wd ≤ buf.length)
    (hsrc : ∀ q, q < m → (src q).length = wd) :
    (writePass wd pos src m buf).length = buf.length := by
  induction m with
  | zero => rfl
  | succ m ih =>
    have hlen : (writePass wd pos src m buf).length = buf.length :=
      ih (fun q hq => hpos q (Nat.lt_succ_of_lt hq))
        (fun q hq => hsrc q (Nat.lt_succ_of_lt hq))
    rw [writePass, length_pySliceAssign _ _ _ wd (by rw [hlen]; exact hpos m (Nat.lt_succ_self m))
      (hsrc m (Nat.lt_succ_self m)), hlen]

/-- Positions not covered by any write keep the original buffer's value. -/
theorem getElem?_writePass_untouched (wd : Nat) (pos : Nat → Nat)
    (src : Nat → List Nat) (m : Nat) (buf : List Nat) (p : Nat)
    (hpos : ∀ q, q < m → pos q + wd ≤ buf.length)
    (hsrc : ∀ q, q < m → (src q).length = wd)
    (hout : ∀ q, q < m → p < pos q ∨ pos q + wd ≤ p) :
    (writePass wd pos src m buf)[p]? = buf[p]? := by
  induction m with
  | zero => rfl
  | succ m ih =>
    have hlen : (writePass wd pos src m buf).length = buf.length :=
      length_writePass wd pos src m buf (fun q hq => hpos q (Nat.lt_succ_of_lt hq))
        (fun q hq => hsrc q (Nat.lt_succ_of_lt hq))
    have hrec := ih (fun q hq => hpos q (Nat.lt_succ_of_lt hq))
      (fun q hq => hsrc q (Nat.lt_succ_of_lt hq))
      (fun q hq => hout q (Nat.lt_succ_of_lt hq))
    rw [writePass]
    rcases hout m (Nat.lt_succ_self m) with hlt | hge
    · rw [getElem?_pySliceAssign_lt _ _ _ _ _ hlt (by rw [hlen]; have := hpos m (Nat.lt_succ_self m); omega), hrec]
    · rw [getElem?_pySliceAssign_ge _ _ _ wd _ hge
        (by rw [hlen]; exact hpos m (Nat.lt_succ_self m)) (hsrc m (Nat.lt_succ_self m)), hrec]

/-- After the pass, each written region holds its source, provided the
regions are pairwise disjoint. -/
theorem getElem?_writePass_written (wd : Nat) (pos : Nat → Nat)
    (src : Nat → List Nat) (m : Nat) (buf : List Nat) (q o : Nat)
    (hpos : ∀ q, q < m → pos q + wd ≤ buf.length)
    (hsrc : ∀ q, q < m → (src q).length = wd)
    (hdis : ∀ q q', q < m → q' < m → q ≠ q' → pos q + wd ≤ pos q' ∨ pos q' + wd ≤ pos q)
    (hq : q < m) (ho : o < wd) :
    (writePass wd pos src m buf)[pos q + o]? = (src q)[o]? := by
  induction m with
  | zero => omega
  | succ m ih =>
    have hlen : (writePass wd pos src m buf).length = buf.length :=
      length_writePass wd pos src m buf (fun q hq => hpos q (Nat.lt_succ_of_lt hq))
        (fun q hq => hsrc q (Nat.lt_succ_of_lt hq))
    rw [writePass]
    rcases Nat.lt_or_ge q m with hqm | hqm
    · have hrec := ih (fun q hq => hpos q (Nat.lt_succ_of_lt hq))
        (fun q hq => hsrc q (Nat.lt_succ_of_lt hq))
        (fun a b ha hb => hdis a b (Nat.lt_succ_of_lt ha) (Nat.lt_succ_of_lt hb)) hqm
      rcases hdis q m (Nat.lt_succ_of_lt hqm) (Nat.lt_succ_self m) (Nat.ne_of_lt hqm) with hd | hd
      · rw [getElem?_pySliceAssign_lt _ _ _ _ _ (by omega)
          (by rw [hlen]; have := hpos m (Nat.lt_succ_self m); omega), hrec]
      · rw [getElem?_pySliceAssign_ge _ _ _ wd _ (by omega)
          (by rw [hlen]; exact hpos m (Nat.lt_succ_self m)) (hsrc m (Nat.lt_succ_self m)), hrec]
    · have hq' : q = m := by omega
      subst hq'
      rw [getElem?_pySliceAssign_mid _ _ _ _ _ (by rw [hsrc q (Nat.lt_succ_self q)]; exact ho)
        (by rw [hlen]; have := hpos q (Nat.lt_succ_self q); omega)]

/-! ### The interleaving loops as a write pass -/

theorem interleavePass_eq_writePass (w h i : Nat) (ch buf : List Nat) :
    interleavePass w h i ch buf =
      writePass 4 (fun q => q * 3 * 4 + i * 4)
        (fun q => pySlice ch (q * 4) ((q + 1) * 4)) (h * w) buf := by
  have h1 := foldRange_mul h w
    (fun b q => pySliceAssign b (pySlice ch (q * 4) ((q + 1) * 4))
      (q * 3 * 4 + i * 4) (q * 3 * 4 + i * 4 + 4)) buf
  have h2 := foldRange_eq_writePass 4 (fun q => q * 3 * 4 + i * 4)
    (fun q => pySlice ch (q * 4) ((q + 1) * 4)) (h * w) buf
  exact Eq.trans h1 h2

theorem length_interleavePass (w h i : Nat) (ch buf : List Nat)
    (hbuf : buf.length = h * w * 3 * 4) (hch : h * w * 4 ≤ ch.length) (hi : i < 3) :
    (interleavePass w h i ch buf).length = buf.length := by
  rw [interleavePass_eq_writePass]
  apply length_writePass
  · intro q hq
    rw [hbuf]
    omega
  · intro q hq
    rw [length_pySlice]
    omega

theorem getElem?_interleavePass_written (w h i : Nat) (ch buf : List Nat) (q o : Nat)
    (hbuf : buf.length = h * w * 3 * 4) (hch : h * w * 4 ≤ ch.length) (hi : i < 3)
    (hq : q < h * w) (ho : o < 4) :
    (interleavePass w h i ch buf)[q * 3 * 4 + i * 4 + o]? = ch[q * 4 + o]? := by
  rw [interleavePass_eq_writePass]
  rw [getElem?_writePass_written 4 _ _ (h * w) buf q o
    (by intro q' hq'; rw [hbuf]; omega)
    (by intro q' hq'; rw [length_pySlice]; omega)
    (by intro a b ha hb hne; omega) hq ho]
  exact getElem?_pySlice ch (q * 4) ((q + 1) * 4) o (by omega)

theorem getElem?_interleavePass_untouched (w h i : Nat) (ch buf : List Nat) (q c o : Nat)
    (hbuf : buf.length = h * w * 3 * 4) (hch : h * w * 4 ≤ ch.length) (hi : i < 3)
    ( _hq : q < h * w) (hc : c < 3) (hne : c ≠ i) (ho : o < 4) :
    (interleavePass w h i ch buf)[q * 3 * 4 + c * 4 + o]? = buf[q * 3 * 4 + c * 4 + o]? := by
  rw [interleavePass_eq_writePass]
  apply getElem?_writePass_untouched
  · intro q' hq'
    rw [hbuf]
    omega
  · intro q' hq'
    rw [length_pySlice]
    omega
  · intro q' hq'
    omega

theorem length_interleaveChannels (w h n : Nat) (r g b : List Nat)
    (hn : n = h * w * 3 * 4) (hr : h * w * 4 ≤ r.length) (hg : h * w * 4 ≤ g.length)
    (hb : h * w * 4 ≤ b.length) :
    (interleaveChannels w h n r g b).length = n := by
  have l0 : (pyZeros n).length = n := by simp [pyZeros]
  have l1 := length_interleavePass w h 0 r (pyZeros n) (by rw [l0, hn]) hr (by omega)
  have l2 := length_interleavePass w h 1 g (interleavePass w h 0 r (pyZeros n))
    (by rw [l1, l0, hn]) hg (by omega)
  have l3 := length_interleavePass w h 2 b
    (interleavePass w h 1 g (interleavePass w h 0 r (pyZeros n)))
    (by rw [l2, l1, l0, hn]) hb (by omega)
  rw [interleaveChannels, l3, l2, l1, l0]

theorem getElem?_interleaveChannels (w h n : Nat) (r g b : List Nat) (q c o : Nat)
    (hn : n = h * w * 3 * 4) (hr : h * w * 4 ≤ r.length) (hg : h * w * 4 ≤ g.length)
    (hb : h * w * 4 ≤ b.length) (hq : q < h * w) (hc : c < 3) (ho : o < 4) :
    (interleaveChannels w h n r g b)[q * 3 * 4 + c * 4 + o]? =
      ([r, g, b].getD c [])[q * 4 + o]? := by
  have l0 : (pyZeros n).length = n := by simp [pyZeros]
  have l1 := length_interleavePass w h 0 r (pyZeros n) (by rw [l0, hn]) hr (by omega)
  have l2 := length_interleavePass w h 1 g (interleavePass w h 0 r (pyZeros n))
    (by rw [l1, l0, hn]) hg (by omega)
  rw [interleaveChannels]
  match c, hc with
  | 0, _ =>
    rw [getElem?_interleavePass_untouched w h 2 b _ q 0 o (by rw [l2, l1, l0, hn]) hb
      (by omega) hq (by omega) (by omega) ho]
    rw [getElem?_interleavePass_untouched w h 1 g _ q 0 o (by rw [l1, l0, hn]) hg
      (by omega) hq (by omega) (by omega) ho]
    exact getElem?_interleavePass_written w h 0 r (pyZeros n) q o (by rw [l0, hn]) hr
      (by omega) hq ho
  | 1, _ =>
    rw [getElem?_interleavePass_untouched w h 2 b _ q 1 o (by rw [l2, l1, l0, hn]) hb
      (by omega) hq (by omega) (by omega) ho]
    exact getElem?_interleavePass_written w h 1 g _ q o (by rw [l1, l0, hn]) hg
      (by omega) hq ho
  | 2, _ =>
    exact getElem?_interleavePass_written w h 2 b _ q o (by rw [l2, l1, l0, hn]) hb
      (by omega) hq ho

/-! ### The vertical flip as a write pass -/

theorem flipVertical_eq_writePass (w h n : Nat) (buf : List Nat) :
    flipVertical w h n buf =
      writePass (w * 3 * 4) (fun j => (h - 1 - j) * (w * 3 * 4))
        (fun j => pySlice buf (j * (w * 3 * 4)) (j * (w * 3 * 4) + w * 3 * 4)) h
        (pyZeros n) :=
  foldRange_eq_writePass (w * 3 * 4) _ _ h (pyZeros n)

theorem row_succ_le (rs : Nat) {j h : Nat} (hj : j < h) : (h - 1 - j) * rs + rs ≤ h * rs := by
  have h1 : (h - 1 - j) + 1 ≤ h := by omega
  calc (h - 1 - j) * rs + rs = ((h - 1 - j) + 1) * rs := by rw [Nat.succ_mul]
    _ ≤ h * rs := Nat.mul_le_mul_right rs h1

theorem row_mul_le (rs : Nat) {j h : Nat} (hj : j < h) : j * rs + rs ≤ h * rs := by
  have h1 : j + 1 ≤ h := hj
  calc j * rs + rs = (j + 1) * rs := by rw [Nat.succ_mul]
    _ ≤ h * rs := Nat.mul_le_mul_right rs h1

theorem rows_disjoint {a b rs : Nat} (hne : a ≠ b) :
    a * rs + rs ≤ b * rs ∨ b * rs + rs ≤ a * rs := by
  rcases Nat.lt_or_ge a b with hab | hab
  · left
    rw [← Nat.succ_mul]
    exact Nat.mul_le_mul_right rs hab
  · right
    have hba : b < a := by omega
    rw [← Nat.succ_mul]
    exact Nat.mul_le_mul_right rs hba

theorem length_flipVertical (w h n : Nat) (buf : List Nat)
    (hn : n = h * (w * 3 * 4)) (hbuf : buf.length = n) :
    (flipVertical w h n buf).length = n := by
  rw [flipVertical_eq_writePass]
  have := length_writePass (w * 3 * 4) (fun j => (h - 1 - j) * (w * 3 * 4))
    (fun j => pySlice buf (j * (w * 3 * 4)) (j * (w * 3 * 4) + w * 3 * 4)) h (pyZeros n)
    (by intro j hj; simp only [pyZeros, List.length_replicate]; rw [hn]; exact row_succ_le (w * 3 * 4) hj)
    (by intro j hj
        rw [length_pySlice, hbuf, hn]
        have := row_mul_le (w * 3 * 4) hj
        omega)
  rw [this]
  simp [pyZeros]

theorem getElem?_flipVertical (w h n : Nat) (buf : List Nat) (j o : Nat)
    (hn : n = h * (w * 3 * 4)) (hbuf : buf.length = n) (hj : j < h) (ho : o < w * 3 * 4) :
    (flipVertical w h n buf)[(h - 1 - j) * (w * 3 * 4) + o]? = buf[j * (w * 3 * 4) + o]? := by
  rw [flipVertical_eq_writePass]
  rw [getElem?_writePass_written (w * 3 * 4) _ _ h (pyZeros n) j o
    (by intro j' hj'; simp only [pyZeros, List.length_replicate]; rw [hn]; exact row_succ_le (w * 3 * 4) hj')
    (by intro j' hj'
        rw [length_pySlice, hbuf, hn]
        have := row_mul_le (w * 3 * 4) hj'
        omega)
    (by intro a b ha hb hne
        exact rows_disjoint (by omega))
    hj ho]
  exact getElem?_pySlice buf _ _ o (by omega)

/-! ### The assembled pixel buffer, element by element -/

theorem pixel_index_lt {y x w h : Nat} (hy : y < h) (hx : x < w) : y * w + x < h * w := by
  have h1 := Nat.mul_le_mul_right w (show y + 1 ≤ h from hy)
  have h2 : (y + 1) * w = y * w + w := Nat.succ_mul y w
  omega

theorem length_assemblePixels (w h n : Nat) (r g b : List Nat)
    (hn : n = w * h * 3 * 4) (hr : w * h * 4 ≤ r.length) (hg : w * h * 4 ≤ g.length)
    (hb : w * h * 4 ≤ b.length) :
    (assemblePixels w h n r g b).length = n := by
  have hhw : h * w = w * h := Nat.mul_comm h w
  rw [assemblePixels]
  rw [length_flipVertical w h n _ (by rw [hn]; ring)]
  exact length_interleaveChannels w h n r g b (by rw [hn, hhw]) (by omega) (by omega)
    (by omega)

theorem getElem?_assemblePixels (w h n : Nat) (r g b : List Nat) (y x c o : Nat)
    (hn : n = w * h * 3 * 4) (hr : w * h * 4 ≤ r.length) (hg : w * h * 4 ≤ g.length)
    (hb : w * h * 4 ≤ b.length) (hy : y < h) (hx : x < w) (hc : c < 3) (ho : o < 4) :
    (assemblePixels w h n r g b)[((h - 1 - y) * w + x) * 3 * 4 + c * 4 + o]? =
      ([r, g, b].getD c [])[(y * w + x) * 4 + o]? := by
  have hhw : h * w = w * h := Nat.mul_comm h w
  have lenI : (interleaveChannels w h n r g b).length = n :=
    length_interleaveChannels w h n r g b (by rw [hn, hhw]) (by omega) (by omega) (by omega)
  have harith : ((h - 1 - y) * w + x) * 3 * 4 + c * 4 + o =
      (h - 1 - y) * (w * 3 * 4) + (x * 3 * 4 + c * 4 + o) := by ring
  rw [assemblePixels, harith]
  rw [getElem?_flipVertical w h n _ y (x * 3 * 4 + c * 4 + o) (by rw [hn]; ring) lenI hy
    (by omega)]
  have harith2 : y * (w * 3 * 4) + (x * 3 * 4 + c * 4 + o) =
      (y * w + x) * 3 * 4 + c * 4 + o := by ring
  rw [harith2]
  exact getElem?_interleaveChannels w h n r g b (y * w + x) c o (by rw [hn, hhw]) (by omega)
    (by omega) (by omega) (pixel_index_lt hy hx) hc ho

/-! ### Unfolding a successful load -/

theorem load_ok (filepath : String) (env : PathEnv) (file : ExrFile)
    (r g b : List Nat) (w h : Nat)
    (hex : env.pathExists = true) (hrd : env.readable = true)
    (hop : env.openResult = .ok file)
    (hR : file.channels.lookup "R" = some r)
    (hG : file.channels.lookup "G" = some g)
    (hB : file.channels.lookup "B" = some b)
    (hw : file.dataWindow.maxX - file.dataWindow.minX + 1 = (w : Int))
    (hh : file.dataWindow.maxY - file.dataWindow.minY + 1 = (h : Int)) :
    load_hdr_environment_map filepath env =
      .ok ((w : Int), (h : Int), assemblePixels w h (w * h * 3 * 4) r g b) := by
  have hcast : ((w : Int) * (h : Int) * 3 * 4) = ((w * h * 3 * 4 : Nat) : Int) := by
    push_cast
    ring
  simp only [load_hdr_environment_map, hex, hrd, hop, ExrFile.channelBytes, hR, hG, hB,
    hw, hh]
  rw [if_neg (show ¬((w : Int) * (h : Int) * 3 * 4 < 0) by rw [Int.not_lt]; positivity)]
  simp
  rw [hcast, Int.toNat_natCast]

/-! ### Slices, chunkings and 32-bit float fields -/

theorem pySlice_shift (l : List Nat) (k a b : Nat) :
    pySlice l (k + a) (k + b) = pySlice (l.drop k) a b := by
  unfold pySlice
  have h1 : k + b - (k + a) = b - a := by omega
  rw [List.drop_drop, h1]

theorem flatten_chunks (k : Nat) : ∀ (n : Nat) (l : List Nat), l.length = n * k →
    ((List.range n).map (fun q => pySlice l (q * k) (q * k + k))).flatten = l := by
  intro n
  induction n with
  | zero =>
    intro l hl
    have : l = [] := List.eq_nil_of_length_eq_zero (by omega)
    subst this
    rfl
  | succ n ih =>
    intro l hl
    rw [List.range_succ_eq_map, List.map_cons, List.map_map, List.flatten_cons]
    have h0 : pySlice l (0 * k) (0 * k + k) = l.take k := by simp [pySlice]
    have hmap : (List.range n).map ((fun q => pySlice l (q * k) (q * k + k)) ∘ Nat.succ) =
        (List.range n).map (fun q => pySlice (l.drop k) (q * k) (q * k + k)) := by
      apply List.map_congr_left
      intro q _
      simp only [Function.comp_apply]
      have e1 : Nat.succ q * k = k + q * k := by rw [Nat.succ_mul]; omega
      have e2 : Nat.succ q * k + k = k + (q * k + k) := by rw [Nat.succ_mul]; omega
      rw [e2, e1, pySlice_shift]
    rw [h0, hmap, ih (l.drop k) (by rw [List.length_drop, hl, Nat.succ_mul]; omega)]
    exact List.take_append_drop k l

theorem pySlice_eq_of_getElem? (A B : List Nat) (a b k : Nat)
    (hA : a + k ≤ A.length) ( _hB : b + k ≤ B.length)
    (h : ∀ o, o < k → A[a + o]? = B[b + o]?) :
    pySlice A a (a + k) = pySlice B b (b + k) := by
  apply List.ext_getElem?
  intro n
  rcases Nat.lt_or_ge n k with hn | hn
  · rw [getElem?_pySlice A a _ n (by omega), getElem?_pySlice B b _ n (by omega)]
    exact h n hn
  · rw [List.getElem?_eq_none (by rw [length_pySlice]; omega),
      List.getElem?_eq_none (by rw [length_pySlice]; omega)]

theorem channel_getD_length {w h : Nat} {r g b : List Nat} (c : Nat)
    (hr : w * h * 4 ≤ r.length) (hg : w * h * 4 ≤ g.length) (hb : w * h * 4 ≤ b.length)
    (hc : c < 3) : w * h * 4 ≤ ([r, g, b].getD c []).length := by
  match c, hc with
  | 0, _ => exact hr
  | 1, _ => exact hg
  | 2, _ => exact hb

/-- The float-level form of the element-wise characterisation: float number
`((h-1-y)*w + x)*3 + c` of the assembled buffer is the 4 bytes of float
number `y*w + x` of channel `c`. -/
theorem float32At_assemblePixels (w h n : Nat) (r g b : List Nat) (y x c : Nat)
    (hn : n = w * h * 3 * 4) (hr : w * h * 4 ≤ r.length) (hg : w * h * 4 ≤ g.length)
    (hb : w * h * 4 ≤ b.length) (hy : y < h) (hx : x < w) (hc : c < 3) :
    float32At (assemblePixels w h n r g b) (((h - 1 - y) * w + x) * 3 + c) =
      float32At ([r, g, b].getD c []) (y * w + x) := by
  have hP : (h - 1 - y) * w + x < h * w := pixel_index_lt (by omega) hx
  have hq : y * w + x < h * w := pixel_index_lt hy hx
  have hlen : (assemblePixels w h n r g b).length = n :=
    length_assemblePixels w h n r g b hn hr hg hb
  have hchan := channel_getD_length c hr hg hb hc
  have e1 : (((h - 1 - y) * w + x) * 3 + c) * 4 = ((h - 1 - y) * w + x) * 3 * 4 + c * 4 := by
    ring
  rw [float32At, float32At, e1]
  apply pySlice_eq_of_getElem?
  · rw [hlen, hn]
    have hww : h * w = w * h := Nat.mul_comm h w
    omega
  · have hww : h * w = w * h := Nat.mul_comm h w
    omega
  · intro o ho
    exact getElem?_assemblePixels w h n r g b y x c o hn hr hg hb hy hx hc ho

/-! ### Round-trip: un-flipping and de-interleaving recover the planes -/

theorem unflipRows_assemblePixels (w h n : Nat) (r g b : List Nat)
    (hn : n = w * h * 3 * 4) (hr : w * h * 4 ≤ r.length) (hg : w * h * 4 ≤ g.length)
    (hb : w * h * 4 ≤ b.length) :
    unflipRows w h (assemblePixels w h n r g b) = interleaveChannels w h n r g b := by
  have hhw : h * w = w * h := Nat.mul_comm h w
  have lenI : (interleaveChannels w h n r g b).length = n :=
    length_interleaveChannels w h n r g b (by rw [hn, hhw]) (by omega) (by omega) (by omega)
  have lenF : (assemblePixels w h n r g b).length = n :=
    length_assemblePixels w h n r g b hn hr hg hb
  rw [unflipRows]
  have hrow : ∀ j ∈ List.range h,
      pySlice (assemblePixels w h n r g b) ((h - 1 - j) * (w * 3 * 4))
        ((h - 1 - j) * (w * 3 * 4) + w * 3 * 4) =
      pySlice (interleaveChannels w h n r g b) (j * (w * 3 * 4))
        (j * (w * 3 * 4) + w * 3 * 4) := by
    intro j hj
    have hj' : j < h := List.mem_range.mp hj
    apply pySlice_eq_of_getElem?
    · rw [lenF, hn]
      have := row_succ_le (w * 3 * 4) hj'
      have e : h * (w * 3 * 4) = w * h * 3 * 4 := by ring
      omega
    · rw [lenI, hn]
      have := row_mul_le (w * 3 * 4) hj'
      have e : h * (w * 3 * 4) = w * h * 3 * 4 := by ring
      omega
    · intro o ho
      exact getElem?_flipVertical w h n _ j o (by rw [hn]; ring) lenI hj' ho
  rw [List.map_congr_left hrow]
  exact flatten_chunks (w * 3 * 4) h (interleaveChannels w h n r g b)
    (by rw [lenI, hn]; ring)

theorem deinterleave_interleaveChannels (w h n c : Nat) (r g b : List Nat)
    (hn : n = w * h * 3 * 4) (hr : w * h * 4 ≤ r.length) (hg : w * h * 4 ≤ g.length)
    (hb : w * h * 4 ≤ b.length) (hc : c < 3)
    (hcl : ([r, g, b].getD c []).length = w * h * 4) :
    deinterleave w h c (interleaveChannels w h n r g b) = [r, g, b].getD c [] := by
  have hhw : h * w = w * h := Nat.mul_comm h w
  have lenI : (interleaveChannels w h n r g b).length = n :=
    length_interleaveChannels w h n r g b (by rw [hn, hhw]) (by omega) (by omega) (by omega)
  rw [deinterleave]
  have hgrp : ∀ q ∈ List.range (w * h),
      pySlice (interleaveChannels w h n r g b) (q * 3 * 4 + c * 4) (q * 3 * 4 + c * 4 + 4) =
      pySlice ([r, g, b].getD c []) (q * 4) (q * 4 + 4) := by
    intro q hq
    have hq' : q < w * h := List.mem_range.mp hq
    apply pySlice_eq_of_getElem?
    · rw [lenI, hn]
      omega
    · rw [hcl]
      omega
    · intro o ho
      exact getElem?_interleaveChannels w h n r g b q c o (by rw [hn, hhw]) (by omega)
        (by omega) (by omega) (by omega) hc ho
  rw [List.map_congr_left hgrp]
  exact flatten_chunks 4 (w * h) ([r, g, b].getD c []) hcl

/-! ### Concrete example inputs used by the witnesses -/

/-- R plane of a 2×2 image; float number `q` has the 4 bytes `[q,q,q,q]`. -/
def exampleR : List Nat := [0, 0, 0, 0, 1, 1, 1, 1, 2, 2, 2, 2, 3, 3, 3, 3]

/-- G plane of a 2×2 image; float number `q` has the 4 bytes `[10+q,…]`. -/
def exampleG : List Nat := [10, 10, 10, 10, 11, 11, 11, 11, 12, 12, 12, 12, 13, 13, 13, 13]

/-- B plane of a 2×2 image; float number `q` has the 4 bytes `[20+q,…]`. -/
def exampleB : List Nat := [20, 20, 20, 20, 21, 21, 21, 21, 22, 22, 22, 22, 23, 23, 23, 23]

/-- A 2×2 EXR container with stored scanlines `[A, B]` (pixels 0,1 on top,
pixels 2,3 below). -/
def example2x2 : ExrFile := ⟨⟨0, 0, 1, 1⟩, [("R", exampleR), ("G", exampleG), ("B", exampleB)]⟩

/-- A 1×1 EXR container with R=1.0, G=2.0, B=3.0 (little-endian float32). -/
def example1x1 : ExrFile :=
  ⟨⟨0, 0, 0, 0⟩, [("R", [0, 0, 128, 63]), ("G", [0, 0, 0, 64]), ("B", [0, 0, 64, 64])]⟩

/-! ### The claims -/

/-- C1: for every successfully loaded image the returned buffer is
channel-interleaved and vertically flipped: the 32-bit float at position
`((height-1-y)*width + x)*3 + c` of the returned buffer is bit-identical to
the value of channel `c` at pixel `(x, y)` of stored scanline `y` as read
from the container; intra-row order is preserved. -/
theorem claim1_interleave_and_flip (filepath : String) (env : PathEnv) (file : ExrFile)
    (r g b : List Nat) (w h x y c : Nat)
    (hex : env.pathExists = true) (hrd : env.readable = true)
    (hop : env.openResult = .ok file)
    (hR : file.channels.lookup "R" = some r)
    (hG : file.channels.lookup "G" = some g)
    (hB : file.channels.lookup "B" = some b)
    (hw : file.dataWindow.maxX - file.dataWindow.minX + 1 = (w : Int))
    (hh : file.dataWindow.maxY - file.dataWindow.minY + 1 = (h : Int))
    (hrl : r.length = w * h * 4) (hgl : g.length = w * h * 4) (hbl : b.length = w * h * 4)
    (hx : x < w) (hy : y < h) (hc : c < 3) :
    load_hdr_environment_map filepath env =
      .ok ((w : Int), (h : Int), assemblePixels w h (w * h * 3 * 4) r g b) ∧
    float32At (assemblePixels w h (w * h * 3 * 4) r g b) (((h - 1 - y) * w + x) * 3 + c) =
      float32At ([r, g, b].getD c []) (y * w + x) :=
  ⟨load_ok filepath env file r g b w h hex hrd hop hR hG hB hw hh,
   float32At_assemblePixels w h (w * h * 3 * 4) r g b y x c rfl (by omega) (by omega)
     (by omega) hy hx hc⟩

/-- C1 witness: the 2×2 image with stored scanlines `[A, B]`; the pixel
`(0, 1)` of stored row B (R-plane float number 2) appears as output float
number 0, i.e. output scanlines are `[B, A]`. -/
theorem claim1_witness :
    load_hdr_environment_map "img.exr" ⟨true, true, .ok example2x2⟩ =
      .ok (2, 2, assemblePixels 2 2 48 exampleR exampleG exampleB) ∧
    float32At (assemblePixels 2 2 48 exampleR exampleG exampleB) 0 =
      float32At exampleR 2 :=
  claim1_interleave_and_flip "img.exr" ⟨true, true, .ok example2x2⟩ example2x2
    exampleR exampleG exampleB 2 2 0 1 0 rfl rfl rfl rfl rfl rfl (by decide) (by decide)
    (by decide) (by decide) (by decide) (by decide) (by decide) (by decide)

/-- C2: for every valid EXR input with R, G, B float channels (each
channel delivering `width*height` 32-bit floats), the returned pixel
buffer holds exactly `width*height*3` floats, i.e. `width*height*3*4`
bytes, with `width`/`height` derived from the data window. -/
theorem claim2_buffer_length (filepath : String) (env : PathEnv) (file : ExrFile)
    (r g b : List Nat) (w h : Nat)
    (hex : env.pathExists = true) (hrd : env.readable = true)
    (hop : env.openResult = .ok file)
    (hR : file.channels.lookup "R" = some r)
    (hG : file.channels.lookup "G" = some g)
    (hB : file.channels.lookup "B" = some b)
    (hw : file.dataWindow.maxX - file.dataWindow.minX + 1 = (w : Int))
    (hh : file.dataWindow.maxY - file.dataWindow.minY + 1 = (h : Int))
    (hrl : r.length = w * h * 4) (hgl : g.length = w * h * 4) (hbl : b.length = w * h * 4) :
    load_hdr_environment_map filepath env =
      .ok ((w : Int), (h : Int), assemblePixels w h (w * h * 3 * 4) r g b) ∧
    (assemblePixels w h (w * h * 3 * 4) r g b).length = w * h * 3 * 4 :=
  ⟨load_ok filepath env file r g b w h hex hrd hop hR hG hB hw hh,
   length_assemblePixels w h (w * h * 3 * 4) r g b rfl (by omega) (by omega) (by omega)⟩

/-- C2 witness: the 1×1 image with R=1.0, G=2.0, B=3.0 loads to a
12-byte (3-float) buffer. -/
theorem claim2_witness :
    load_hdr_environment_map "img.exr" ⟨true, true, .ok example1x1⟩ =
      .ok (1, 1, assemblePixels 1 1 12 [0, 0, 128, 63] [0, 0, 0, 64] [0, 0, 64, 64]) ∧
    (assemblePixels 1 1 12 [0, 0, 128, 63] [0, 0, 0, 64] [0, 0, 64, 64]).length = 12 :=
  claim2_buffer_length "img.exr" ⟨true, true, .ok example1x1⟩ example1x1
    [0, 0, 128, 63] [0, 0, 0, 64] [0, 0, 64, 64] 1 1 rfl rfl rfl rfl rfl rfl (by decide)
    (by decide) (by decide) (by decide) (by decide)

/-- C3: the failure modes are checked in a fixed order, each with its own
error kind: a nonexistent path gives `FileNotFoundError` (regardless of
the other conditions), an existing unreadable path gives `PermissionError`,
and an open failure on an existing readable path gives `OSError` wrapping
the cause; each of these exits carries no pixel data. -/
theorem claim3_error_order (filepath : String) (env : PathEnv) :
    (env.pathExists = false →
      load_hdr_environment_map filepath env =
        .error (.fileNotFoundError ("File not found: " ++ filepath))) ∧
    (env.pathExists = true → env.readable = false →
      load_hdr_environment_map filepath env =
        .error (.permissionError ("File is not readable: " ++ filepath))) ∧
    (∀ msg : String, env.pathExists = true → env.readable = true →
      env.openResult = .error msg →
      load_hdr_environment_map filepath env =
        .error (.osError ("Unable to open '" ++ filepath ++ "' for read: " ++ msg))) := by
  refine ⟨fun h1 => ?_, fun h1 h2 => ?_, fun msg h1 h2 h3 => ?_⟩
  · simp [load_hdr_environment_map, h1]
  · simp [load_hdr_environment_map, h1, h2]
  · simp [load_hdr_environment_map, h1, h2, h3]

/-- C3 witness: the three error exits at concrete environments, including
a nonexistent path that is also unreadable (existence wins). -/
theorem claim3_witness :
    load_hdr_environment_map "no.exr" ⟨false, false, .error "e"⟩ =
      .error (.fileNotFoundError ("File not found: " ++ "no.exr")) ∧
    load_hdr_environment_map "locked.exr" ⟨true, false, .error "e"⟩ =
      .error (.permissionError ("File is not readable: " ++ "locked.exr")) ∧
    load_hdr_environment_map "bad.exr" ⟨true, true, .error "corrupt header"⟩ =
      .error (.osError ("Unable to open '" ++ "bad.exr" ++ "' for read: " ++
        "corrupt header")) :=
  ⟨(claim3_error_order "no.exr" ⟨false, false, .error "e"⟩).1 rfl,
   (claim3_error_order "locked.exr" ⟨true, false, .error "e"⟩).2.1 rfl rfl,
   (claim3_error_order "bad.exr" ⟨true, true, .error "corrupt header"⟩).2.2
     "corrupt header" rfl rfl rfl⟩

/-- C4: a container that opens but lacks one of the required channels R,
G, B makes the load fail with the channel-not-found error carrying the
missing channel's name (the first missing one in the fixed order R, G, B),
never returning a fabricated buffer; in particular an EXR with only R and
G fails with the name "B". -/
theorem claim4_missing_channel (filepath : String) (env : PathEnv) (file : ExrFile)
    (hex : env.pathExists = true) (hrd : env.readable = true)
    (hop : env.openResult = .ok file) :
    (file.channels.lookup "R" = none →
      load_hdr_environment_map filepath env = .error (.channelNotFound "R")) ∧
    (∀ rv : List Nat, file.channels.lookup "R" = some rv →
      file.channels.lookup "G" = none →
      load_hdr_environment_map filepath env = .error (.channelNotFound "G")) ∧
    (∀ rv gv : List Nat, file.channels.lookup "R" = some rv →
      file.channels.lookup "G" = some gv → file.channels.lookup "B" = none →
      load_hdr_environment_map filepath env = .error (.channelNotFound "B")) := by
  refine ⟨fun h1 => ?_, fun rv h1 h2 => ?_, fun rv gv h1 h2 h3 => ?_⟩
  · simp [load_hdr_environment_map, hex, hrd, hop, ExrFile.channelBytes, h1]
  · simp [load_hdr_environment_map, hex, hrd, hop, ExrFile.channelBytes, h1, h2]
  · simp [load_hdr_environment_map, hex, hrd, hop, ExrFile.channelBytes, h1, h2, h3]

/-- C4 witness: a 1×1 container with only R and G fails with the
channel name "B". -/
theorem claim4_witness :
    load_hdr_environment_map "rg.exr"
      ⟨true, true, .ok ⟨⟨0, 0, 0, 0⟩, [("R", [1, 1, 1, 1]), ("G", [2, 2, 2, 2])]⟩⟩ =
      .error (.channelNotFound "B") :=
  (claim4_missing_channel "rg.exr"
      ⟨true, true, .ok ⟨⟨0, 0, 0, 0⟩, [("R", [1, 1, 1, 1]), ("G", [2, 2, 2, 2])]⟩⟩
      ⟨⟨0, 0, 0, 0⟩, [("R", [1, 1, 1, 1]), ("G", [2, 2, 2, 2])]⟩ rfl rfl rfl).2.2
    [1, 1, 1, 1] [2, 2, 2, 2] rfl rfl rfl

/-- C5: round-trip — reversing the row order of the returned buffer and
de-interleaving the result back into three planes reproduces, byte for
byte, the per-channel scanline data read from the container. -/
theorem claim5_round_trip (filepath : String) (env : PathEnv) (file : ExrFile)
    (r g b : List Nat) (w h : Nat)
    (hex : env.pathExists = true) (hrd : env.readable = true)
    (hop : env.openResult = .ok file)
    (hR : file.channels.lookup "R" = some r)
    (hG : file.channels.lookup "G" = some g)
    (hB : file.channels.lookup "B" = some b)
    (hw : file.dataWindow.maxX - file.dataWindow.minX + 1 = (w : Int))
    (hh : file.dataWindow.maxY - file.dataWindow.minY + 1 = (h : Int))
    (hrl : r.length = w * h * 4) (hgl : g.length = w * h * 4) (hbl : b.length = w * h * 4) :
    load_hdr_environment_map filepath env =
      .ok ((w : Int), (h : Int), assemblePixels w h (w * h * 3 * 4) r g b) ∧
    deinterleave w h 0 (unflipRows w h (assemblePixels w h (w * h * 3 * 4) r g b)) = r ∧
    deinterleave w h 1 (unflipRows w h (assemblePixels w h (w * h * 3 * 4) r g b)) = g ∧
    deinterleave w h 2 (unflipRows w h (assemblePixels w h (w * h * 3 * 4) r g b)) = b := by
  have hunflip := unflipRows_assemblePixels w h (w * h * 3 * 4) r g b rfl (by omega)
    (by omega) (by omega)
  refine ⟨load_ok filepath env file r g b w h hex hrd hop hR hG hB hw hh, ?_, ?_, ?_⟩
  · rw [hunflip]
    exact deinterleave_interleaveChannels w h (w * h * 3 * 4) 0 r g b rfl (by omega)
      (by omega) (by omega) (by omega) hrl
  · rw [hunflip]
    exact deinterleave_interleaveChannels w h (w * h * 3 * 4) 1 r g b rfl (by omega)
      (by omega) (by omega) (by omega) hgl
  · rw [hunflip]
    exact deinterleave_interleaveChannels w h (w * h * 3 * 4) 2 r g b rfl (by omega)
      (by omega) (by omega) (by omega) hbl

/-- C5 witness: the 2×2 round trip recovers the three stored planes. -/
theorem claim5_witness :
    load_hdr_environment_map "img.exr" ⟨true, true, .ok example2x2⟩ =
      .ok (2, 2, assemblePixels 2 2 48 exampleR exampleG exampleB) ∧
    deinterleave 2 2 0 (unflipRows 2 2 (assemblePixels 2 2 48 exampleR exampleG exampleB)) =
      exampleR ∧
    deinterleave 2 2 1 (unflipRows 2 2 (assemblePixels 2 2 48 exampleR exampleG exampleB)) =
      exampleG ∧
    deinterleave 2 2 2 (unflipRows 2 2 (assemblePixels 2 2 48 exampleR exampleG exampleB)) =
      exampleB :=
  claim5_round_trip "img.exr" ⟨true, true, .ok example2x2⟩ example2x2
    exampleR exampleG exampleB 2 2 rfl rfl rfl rfl rfl rfl (by decide) (by decide)
    (by decide) (by decide) (by decide)

/-- C6: the load is deterministic and pure given the file contents: it
leaves the world of files unchanged, its result depends only on what the
world answers for the requested path, and loading again after a load
returns a bit-identical result. -/
theorem claim6_purity (w₁ w₂ : String → PathEnv) (p : String) (hsame : w₁ p = w₂ p) :
    (loadFromWorld w₁ p).1 = w₁ ∧
    (loadFromWorld w₁ p).2 = (loadFromWorld w₂ p).2 ∧
    (loadFromWorld ((loadFromWorld w₁ p).1) p).2 = (loadFromWorld w₁ p).2 := by
  refine ⟨rfl, ?_, rfl⟩
  simp only [loadFromWorld, hsame]

/-- C6 witness: two worlds agreeing on the requested path. -/
theorem claim6_witness :
    (loadFromWorld (fun _ => ⟨false, true, .error "e"⟩) "p").1 =
      (fun _ => (⟨false, true, .error "e"⟩ : PathEnv)) ∧
    (loadFromWorld (fun _ => ⟨false, true, .error "e"⟩) "p").2 =
      (loadFromWorld (fun _ => ⟨false, true, .error "e"⟩) "p").2 ∧
    (loadFromWorld ((loadFromWorld (fun _ => ⟨false, true, .error "e"⟩) "p").1) "p").2 =
      (loadFromWorld (fun _ => ⟨false, true, .error "e"⟩) "p").2 :=
  claim6_purity (fun _ => ⟨false, true, .error "e"⟩) (fun _ => ⟨false, true, .error "e"⟩)
    "p" rfl

/-- A container whose data window has `maxX < minX`, giving computed
width `0` (height `1`), with all three channels present (and empty, which
matches `width*height*4 = 0` bytes). -/
def zeroWidthFile : ExrFile := ⟨⟨0, 0, -1, 0⟩, [("R", []), ("G", []), ("B", [])]⟩

/-- C7 counterexample: on a zero-width data window the load does not
raise the open-failure error (nor any other): it returns successfully
with width 0, height 1 and an empty buffer. -/
theorem claim7_counterexample :
    load_hdr_environment_map "z.exr" ⟨true, true, .ok zeroWidthFile⟩ = .ok (0, 1, []) :=
  rfl

/-- C7 amended: after the container opens the load computes
`width = maxX - minX + 1` and `height = maxY - minY + 1` from the data
window, but performs no positivity validation: whenever the three
channels are present and `width*height` is non-negative (in particular
when a dimension is zero), it returns successfully with exactly those
computed dimensions instead of raising the open-failure error. -/
theorem claim7_no_dimension_check (filepath : String) (env : PathEnv) (file : ExrFile)
    (r g b : List Nat)
    (hex : env.pathExists = true) (hrd : env.readable = true)
    (hop : env.openResult = .ok file)
    (hR : file.channels.lookup "R" = some r)
    (hG : file.channels.lookup "G" = some g)
    (hB : file.channels.lookup "B" = some b)
    (hpos : 0 ≤ (file.dataWindow.maxX - file.dataWindow.minX + 1) *
      (file.dataWindow.maxY - file.dataWindow.minY + 1)) :
    ∃ pix : List Nat,
      load_hdr_environment_map filepath env =
        .ok (file.dataWindow.maxX - file.dataWindow.minX + 1,
          file.dataWindow.maxY - file.dataWindow.minY + 1, pix) := by
  have key : load_hdr_environment_map filepath env =
      .ok (file.dataWindow.maxX - file.dataWindow.minX + 1,
        file.dataWindow.maxY - file.dataWindow.minY + 1,
        assemblePixels (file.dataWindow.maxX - file.dataWindow.minX + 1).toNat
          (file.dataWindow.maxY - file.dataWindow.minY + 1).toNat
          ((file.dataWindow.maxX - file.dataWindow.minX + 1) *
            (file.dataWindow.maxY - file.dataWindow.minY + 1) * 3 * 4).toNat r g b) := by
    simp only [load_hdr_environment_map, hex, hrd, hop, ExrFile.channelBytes, hR, hG, hB]
    rw [if_neg (show ¬(true = false) by decide)]
    have hcond : ¬((file.dataWindow.maxX - file.dataWindow.minX + 1) *
        (file.dataWindow.maxY - file.dataWindow.minY + 1) * 3 * 4 < 0) := by
      rw [Int.not_lt]
      exact mul_nonneg (mul_nonneg hpos (by norm_num)) (by norm_num)
    rw [if_neg hcond]
    simp
  exact ⟨_, key⟩

/-- C7 witness: the zero-width container loads successfully with the
computed dimensions `(0, 1)`. -/
theorem claim7_witness :
    ∃ pix : List Nat,
      load_hdr_environment_map "z.exr" ⟨true, true, .ok zeroWidthFile⟩ =
        .ok (0, 1, pix) :=
  claim7_no_dimension_check "z.exr" ⟨true, true, .ok zeroWidthFile⟩ zeroWidthFile
    [] [] [] rfl rfl rfl rfl rfl rfl (by decide)

/-- A 1×1 container whose R channel carries the quiet-NaN bit pattern
`0x7FC00000` (little-endian bytes `[0, 0, 192, 127]`). -/
def nanFile : ExrFile :=
  ⟨⟨0, 0, 0, 0⟩, [("R", [0, 0, 192, 127]), ("G", [0, 0, 0, 0]), ("B", [0, 0, 0, 0])]⟩

/-- C8 counterexample: a NaN bit pattern stored in the file appears
bit-for-bit in the returned buffer, so not every returned 32-bit float is
finite. -/
theorem claim8_counterexample :
    load_hdr_environment_map "nan.exr" ⟨true, true, .ok nanFile⟩ =
      .ok (1, 1, [0, 0, 192, 127, 0, 0, 0, 0, 0, 0, 0, 0]) ∧
    isFiniteF32 (float32At [0, 0, 192, 127, 0, 0, 0, 0, 0, 0, 0, 0] 0) = false :=
  ⟨rfl, rfl⟩

/-- C8 amended: no clamping or conversion is applied — every 32-bit
float of the returned buffer is bit-identical to the corresponding stored
channel value (position `(y*w + x)*3 + c` of the output carries channel
`c` of stored pixel `(x, h-1-y)`), so values above 1.0 pass through
unchanged; finiteness, however, is not enforced. -/
theorem claim8_values_verbatim (filepath : String) (env : PathEnv) (file : ExrFile)
    (r g b : List Nat) (w h x y c : Nat)
    (hex : env.pathExists = true) (hrd : env.readable = true)
    (hop : env.openResult = .ok file)
    (hR : file.channels.lookup "R" = some r)
    (hG : file.channels.lookup "G" = some g)
    (hB : file.channels.lookup "B" = some b)
    (hw : file.dataWindow.maxX - file.dataWindow.minX + 1 = (w : Int))
    (hh : file.dataWindow.maxY - file.dataWindow.minY + 1 = (h : Int))
    (hrl : r.length = w * h * 4) (hgl : g.length = w * h * 4) (hbl : b.length = w * h * 4)
    (hx : x < w) (hy : y < h) (hc : c < 3) :
    load_hdr_environment_map filepath env =
      .ok ((w : Int), (h : Int), assemblePixels w h (w * h * 3 * 4) r g b) ∧
    float32At (assemblePixels w h (w * h * 3 * 4) r g b) ((y * w + x) * 3 + c) =
      float32At ([r, g, b].getD c []) ((h - 1 - y) * w + x) := by
  refine ⟨load_ok filepath env file r g b w h hex hrd hop hR hG hB hw hh, ?_⟩
  have hmain := float32At_assemblePixels w h (w * h * 3 * 4) r g b (h - 1 - y) x c rfl
    (by omega) (by omega) (by omega) (by omega) hx hc
  rw [show h - 1 - (h - 1 - y) = y from by omega] at hmain
  exact hmain

/-- C8 witness: the 2×2 example, output float number 3 (pixel `(1, 1)`
of the output, channel R) is byte-identical to stored R float number 1. -/
theorem claim8_witness :
    load_hdr_environment_map "img.exr" ⟨true, true, .ok example2x2⟩ =
      .ok (2, 2, assemblePixels 2 2 48 exampleR exampleG exampleB) ∧
    float32At (assemblePixels 2 2 48 exampleR exampleG exampleB) 9 =
      float32At exampleR 1 :=
  claim8_values_verbatim "img.exr" ⟨true, true, .ok example2x2⟩ example2x2
    exampleR exampleG exampleB 2 2 1 1 0 rfl rfl rfl rfl rfl rfl (by decide) (by decide)
    (by decide) (by decide) (by decide) (by decide) (by decide) (by decide)

/-- A 1×1 container whose R channel is 3 bytes instead of 4. -/
def shortRFile : ExrFile :=
  ⟨⟨0, 0, 0, 0⟩, [("R", [9, 9, 9]), ("G", [7, 7, 7, 7]), ("B", [8, 8, 8, 8])]⟩

/-- A 1×1 container whose B channel is empty instead of 4 bytes. -/
def emptyBFile : ExrFile :=
  ⟨⟨0, 0, 0, 0⟩, [("R", [1, 1, 1, 1]), ("G", [2, 2, 2, 2]), ("B", [])]⟩

/-- C10 counterexample: with a 3-byte R channel on a 1×1 image (shorter
than `width*height*4 = 4`) the load raises no error, but the returned
buffer is NOT strictly shorter than `width*height*3` floats: the later
slice assignments re-extend it to the full 12 bytes (with shifted,
corrupted content `[9,9,9,0,…]`). -/
theorem claim10_counterexample :
    load_hdr_environment_map "short.exr" ⟨true, true, .ok shortRFile⟩ =
      .ok (1, 1, [9, 9, 9, 0, 7, 7, 7, 7, 8, 8, 8, 8]) ∧
    ([9, 9, 9, 0, 7, 7, 7, 7, 8, 8, 8, 8] : List Nat).length = 1 * 1 * 3 * 4 :=
  ⟨rfl, rfl⟩

/-- C10 amended: the output-length guarantee indeed depends silently on
each channel delivering at least `width*height*4` bytes — a shorter
channel raises no error and the slice assignments resize the byte buffer
instead of failing — but the result is not strictly shorter for every
such input: an empty B channel on a 1×1 image yields a strictly shorter
8-byte buffer, while the 3-byte-R input of the counterexample re-extends
to full length with corrupted content. -/
theorem claim10_short_channel_resizes :
    load_hdr_environment_map "shortb.exr" ⟨true, true, .ok emptyBFile⟩ =
      .ok (1, 1, [1, 1, 1, 1, 2, 2, 2, 2]) ∧
    ([1, 1, 1, 1, 2, 2, 2, 2] : List Nat).length < 1 * 1 * 3 * 4 :=
  ⟨rfl, by decide⟩

end HdrLoad
